import Mathlib

/-!
# Verification of the todo-app task lifecycle

Shallow embedding of the task-tracking application
(`api/handlers/task_handler.go`, `api/models` (Task / TaskRequest),
`db/migrations/init.sql`, `src/App.tsx`, `src/api/taskApi.ts`).

Modelling conventions:
* Timestamps (`time.Time` in Go, `Date` in the client) are modelled as
  seconds on a linear time axis (`Nat`); the Go zero value `time.Time{}`
  is `0`.  A calendar day is the quotient by `86400`.
* The MySQL table `tasks` is modelled as a `List Task` of rows.
  `INSERT` appends (failing on a primary-key collision), `UPDATE`/`DELETE`
  act on the rows matching the `WHERE id = ?` clause, `rowsAffected` is
  the number of matched rows, and `ORDER BY due_date ASC` is a sort by
  `dueDate`.
* Gin's `ShouldBindJSON` with `binding:"required"` on `Title` and
  `DueDate` rejects a request whose title is the empty string or whose
  due date is the zero value.
* The ambient capabilities `time.Now()` and `uuid.New().String()` are
  passed to the handlers as explicit arguments (`now`, `newId`), as the
  design notes prescribe for the clock and the id generator.
-/

namespace TodoApp

/-- Row of the `tasks` table / `models.Task`
(`id`, `title`, `due_date`, `completed`, `created_at`, `updated_at`). -/
structure Task where
  id : String
  title : String
  dueDate : Nat
  completed : Bool
  createdAt : Nat
  updatedAt : Nat
deriving Repr, DecidableEq

/-- `models.TaskRequest`: the JSON body of create/update requests. -/
structure TaskRequest where
  title : String
  dueDate : Nat
  completed : Bool
deriving Repr, DecidableEq

/-- The persisted store: the rows of the `tasks` table. -/
abbrev Store := List Task

/-- Gin `ShouldBindJSON` with `binding:"required"` on `Title` and
`DueDate`: the bind succeeds iff the title is not the zero string and the
due date is not the zero time. -/
def bindOk (req : TaskRequest) : Bool :=
  !(req.title == "") && !(req.dueDate == 0)

/-- Result of a handler that may return a `Task` body and mutates the
store (HTTP status, optional body, resulting store). -/
structure MutResult where
  status : Nat
  body : Option Task
  store : Store
deriving Repr, DecidableEq

/-- Result of a read-only handler returning at most one `Task`. -/
structure GetResult where
  status : Nat
  body : Option Task
deriving Repr, DecidableEq

/-- Result of the delete handler (HTTP status, resulting store). -/
structure DelResult where
  status : Nat
  store : Store
deriving Repr, DecidableEq

/-- `TaskHandler.CreateTask`: bind the JSON body (400 on failure, no DB
call), read `now` and a fresh uuid `newId`, `INSERT` the row (500 on a
primary-key collision), and answer 201 with the task whose
`CreatedAt = UpdatedAt = now`. -/
def createTask (store : Store) (req : TaskRequest) (now : Nat)
    (newId : String) : MutResult :=
  if !bindOk req then
    ⟨400, none, store⟩
  else if store.any (fun t => t.id == newId) then
    ⟨500, none, store⟩
  else
    let task : Task :=
      ⟨newId, req.title, req.dueDate, req.completed, now, now⟩
    ⟨201, some task, store ++ [task]⟩

/-- `TaskHandler.GetTask`: `SELECT ... WHERE id = ?`; 404 on
`sql.ErrNoRows`, otherwise 200 with the row. -/
def getTask (store : Store) (id : String) : GetResult :=
  match store.find? (fun t => t.id == id) with
  | some t => ⟨200, some t⟩
  | none => ⟨404, none⟩

/-- Order used by `ORDER BY due_date ASC`. -/
def dueLE (a b : Task) : Prop := a.dueDate ≤ b.dueDate

instance : DecidableRel dueLE := fun a b => Nat.decLe a.dueDate b.dueDate

instance : IsTotal Task dueLE := ⟨fun a b => Nat.le_total a.dueDate b.dueDate⟩

instance : IsTrans Task dueLE := ⟨fun _ _ _ h h2 => Nat.le_trans h h2⟩

/-- `TaskHandler.GetTasks`: `SELECT ... FROM tasks ORDER BY due_date ASC`
and answer 200 with every row in that order. -/
def getTasks (store : Store) : List Task :=
  List.insertionSort dueLE store

/-- The row after the SQL
`UPDATE tasks SET title = ?, due_date = ?, completed = ?, updated_at = ?`
touches it: `id` and `created_at` are left unchanged. -/
def applyUpdate (req : TaskRequest) (now : Nat) (t : Task) : Task :=
  { t with title := req.title, dueDate := req.dueDate,
           completed := req.completed, updatedAt := now }

/-- `TaskHandler.UpdateTask`: bind the JSON body (400 on failure), run the
`UPDATE ... WHERE id = ?`, answer 404 when `rowsAffected = 0`, otherwise
200 with a `models.Task` built from the path id and the request body —
its `CreatedAt` field is never assigned and stays the zero value. -/
def updateTask (store : Store) (id : String) (req : TaskRequest)
    (now : Nat) : MutResult :=
  if !bindOk req then
    ⟨400, none, store⟩
  else
    let newStore := store.map
      (fun t => if t.id == id then applyUpdate req now t else t)
    if (store.filter (fun t => t.id == id)).length = 0 then
      ⟨404, none, newStore⟩
    else
      ⟨200, some ⟨id, req.title, req.dueDate, req.completed, 0, now⟩,
        newStore⟩

/-- `TaskHandler.DeleteTask`: run `DELETE FROM tasks WHERE id = ?`,
answer 404 when `rowsAffected = 0`, otherwise 200. -/
def deleteTask (store : Store) (id : String) : DelResult :=
  let newStore := store.filter (fun t => !(t.id == id))
  if (store.filter (fun t => t.id == id)).length = 0 then
    ⟨404, newStore⟩
  else
    ⟨200, newStore⟩

/-- Seconds in a calendar day. -/
def secondsPerDay : Nat := 86400

/-- The calendar day of a timestamp (`dateOnly` in the spec's words). -/
def dateOnly (ts : Nat) : Nat := ts / secondsPerDay

/-- Client `isTaskOverdue` (`src/App.tsx`): take `new Date()`, zero its
time of day with `setHours(0,0,0,0)`, and return
`!task.completed && isAfter(today, task.dueDate)` — `isAfter a b` is the
strict comparison `a > b` on full timestamps. -/
def isTaskOverdue (completed : Bool) (dueDate : Nat) (nowTs : Nat) : Bool :=
  let today := (nowTs / secondsPerDay) * secondsPerDay
  !completed && decide (dueDate < today)

/-- The overdue predicate in the spec's words: not completed, and today's
calendar day strictly exceeds the due date's calendar day (time of day of
both sides ignored). -/
def specOverdue (completed : Bool) (dueDate : Nat) (nowTs : Nat) : Bool :=
  !completed && decide (dateOnly dueDate < dateOnly nowTs)

/-- Client `addTask` date handling (`src/App.tsx`): the create form's
date-only string `YYYY-MM-DD` gets the literal `"T00:00:00"` appended and
is parsed by the `Date` constructor as a LOCAL wall-clock time.  Local
midnight of calendar day `day`, in a zone lying `tz` seconds ahead of
UTC, is the epoch instant `day * 86400 - tz`. -/
def parseLocalMidnight (day : Nat) (tz : Int) : Int :=
  (day : Int) * (secondsPerDay : Int) - tz

/-- `formatDateForApi` (`src/api/taskApi.ts`):
`format(date, "yyyy-MM-dd'T'HH:mm:ss'Z'")` prints the instant's LOCAL
calendar day and local time of day, then appends the literal `Z`.  We
return the printed pair (calendar day, seconds of time-of-day); the wire
string is that pair rendered as `yyyy-MM-ddTHH:mm:ss` followed by `Z`. -/
def formatDateForApi (epoch : Int) (tz : Int) : Int × Int :=
  let localSec := epoch + tz
  (localSec / (secondsPerDay : Int), localSec % (secondsPerDay : Int))

/-- One client-originated mutation, with the capability inputs the
handler reads from the environment (`uuid.New().String()` for create). -/
inductive Op where
  | create (req : TaskRequest) (newId : String)
  | update (id : String) (req : TaskRequest)
  | delete (id : String)
deriving Repr, DecidableEq

/-- Effect of one handler call on the persisted store, at clock reading
`now` (`time.Now()` at the time of the call). -/
def applyOp (store : Store) (op : Op) (now : Nat) : Store :=
  match op with
  | .create req newId => (createTask store req now newId).store
  | .update id req => (updateTask store id req now).store
  | .delete id => (deleteTask store id).store

/-- Run a sequence of handler calls, each paired with its `time.Now()`
reading, starting from a given store. -/
def run (store : Store) : List (Op × Nat) → Store
  | [] => store
  | (op, now) :: rest => run (applyOp store op now) rest

/-- Inductive invariant for the timestamp claim: every row satisfies
`createdAt ≤ updatedAt`, and every row's `createdAt` is at most the
latest clock reading `c` seen so far. -/
def GoodStore (store : Store) (c : Nat) : Prop :=
  ∀ t ∈ store, t.createdAt ≤ t.updatedAt ∧ t.createdAt ≤ c

/-! ## Theorems -/

lemma overdue_eq_spec_aux (completed : Bool) (dueDate nowTs : Nat) :
    isTaskOverdue completed dueDate nowTs
      = specOverdue completed dueDate nowTs := by
  simp only [isTaskOverdue, specOverdue, dateOnly]
  congr 1
  rw [decide_eq_decide]
  exact (Nat.div_lt_iff_lt_mul (by decide : 0 < secondsPerDay)).symm

/-- C1: the client's overdue test equals the date-only specification
predicate — not completed AND today's calendar day strictly past the due
date's calendar day, both times of day ignored — for every task state and
every current instant; in particular a task due on today's calendar day
is not overdue, and a completed task is never overdue. -/
theorem overdue_matches_spec :
    (∀ (completed : Bool) (dueDate nowTs : Nat),
      isTaskOverdue completed dueDate nowTs
        = specOverdue completed dueDate nowTs)
    ∧ (∀ (completed : Bool) (dueDate nowTs : Nat),
        dateOnly dueDate = dateOnly nowTs →
          isTaskOverdue completed dueDate nowTs = false)
    ∧ (∀ (dueDate nowTs : Nat), isTaskOverdue true dueDate nowTs = false) := by
  refine ⟨overdue_eq_spec_aux, ?_, ?_⟩
  · intro completed dueDate nowTs h
    rw [overdue_eq_spec_aux]
    simp [specOverdue, h]
  · intro dueDate nowTs
    simp [isTaskOverdue]

/-- C1 witness: a task due at second 100 of day 0, viewed at second 200
of day 0, is not overdue. -/
theorem overdue_matches_spec_witness :
    isTaskOverdue false 100 200 = false :=
  overdue_matches_spec.2.1 false 100 200 (by decide)

/-- C2: a creation request with an empty title fails the JSON bind, the
handler answers 400 with no body, and the store is returned exactly as it
was — no insert is attempted. -/
theorem createTask_empty_title_rejected (store : Store) (req : TaskRequest)
    (now : Nat) (newId : String) (h : req.title = "") :
    createTask store req now newId = ⟨400, none, store⟩ := by
  simp [createTask, bindOk, h]

/-- C2 witness: creating with title `""` against a one-row store answers
400 and leaves the row untouched. -/
theorem createTask_empty_title_rejected_witness :
    createTask [⟨"a", "x", 3, false, 1, 1⟩] ⟨"", 7, false⟩ 9 "b"
      = ⟨400, none, [⟨"a", "x", 3, false, 1, 1⟩]⟩ :=
  createTask_empty_title_rejected _ _ _ _ rfl

lemma filter_id_eq_nil {store : Store} {id : String}
    (hid : ∀ t ∈ store, t.id ≠ id) :
    store.filter (fun t => t.id == id) = [] := by
  rw [List.filter_eq_nil_iff]
  intro t ht
  simpa using hid t ht

lemma map_update_id_not_mem {store : Store} {id : String}
    (req : TaskRequest) (now : Nat) (hid : ∀ t ∈ store, t.id ≠ id) :
    store.map (fun t => if t.id == id then applyUpdate req now t else t)
      = store := by
  have h : ∀ t ∈ store,
      (if t.id == id then applyUpdate req now t else t) = t := by
    intro t ht
    simp [hid t ht]
  rw [List.map_congr_left h]
  exact List.map_id store

/-- C3: updating an id that matches no row, with a request that passes
the bind, answers 404 with no body and hands back a store equal to the
one before the call — the `UPDATE` touched zero rows. -/
theorem updateTask_missing_id_noop (store : Store) (id : String)
    (req : TaskRequest) (now : Nat) (hreq : bindOk req = true)
    (hid : ∀ t ∈ store, t.id ≠ id) :
    updateTask store id req now = ⟨404, none, store⟩ := by
  unfold updateTask
  rw [hreq, map_update_id_not_mem req now hid, filter_id_eq_nil hid]
  simp

/-- C3 witness: updating id `"b"` against a store holding only id `"a"`
answers 404 and leaves the store as it was. -/
theorem updateTask_missing_id_noop_witness :
    updateTask [⟨"a", "x", 3, false, 1, 1⟩] "b" ⟨"y", 5, true⟩ 9
      = ⟨404, none, [⟨"a", "x", 3, false, 1, 1⟩]⟩ :=
  updateTask_missing_id_noop _ _ _ _ (by decide) (by decide)

lemma filter_ne_id_not_mem {store : Store} {id : String}
    (hid : ∀ t ∈ store, t.id ≠ id) :
    store.filter (fun t => !(t.id == id)) = store := by
  rw [List.filter_eq_self]
  intro t ht
  simp [hid t ht]

/-- C4: deleting an id that matches no row (in particular one already
deleted) answers 404 — not a success — and hands back a store equal to
the one before the call; the handler returns normally. -/
theorem deleteTask_missing_id_noop (store : Store) (id : String)
    (hid : ∀ t ∈ store, t.id ≠ id) :
    deleteTask store id = ⟨404, store⟩ := by
  unfold deleteTask
  rw [filter_ne_id_not_mem hid, filter_id_eq_nil hid]
  simp

/-- C4 witness: deleting id `"b"` twice in a row from a store holding
only id `"b"` — the second delete hits the already-deleted id, answers
404 and leaves the (now empty) store unchanged. -/
theorem deleteTask_missing_id_noop_witness :
    deleteTask (deleteTask [⟨"b", "x", 3, false, 1, 1⟩] "b").store "b"
      = ⟨404, []⟩ := by
  have h : (deleteTask [⟨"b", "x", 3, false, 1, 1⟩] "b").store = [] := by
    decide
  rw [h]
  exact deleteTask_missing_id_noop [] "b" (by decide)

/-- C5: the list endpoint returns exactly the store's rows (a permutation
of them), in ascending `dueDate` order, and the empty list on the empty
store. -/
theorem getTasks_sorted_ascending :
    (∀ store : Store, List.Perm (getTasks store) store)
    ∧ (∀ store : Store, List.Sorted dueLE (getTasks store))
    ∧ getTasks ([] : Store) = [] :=
  ⟨fun store => List.perm_insertionSort dueLE store,
   fun store => List.sorted_insertionSort dueLE store, rfl⟩

lemma any_id_eq_false {store : Store} {newId : String}
    (hfresh : ∀ t ∈ store, t.id ≠ newId) :
    store.any (fun t => t.id == newId) = false := by
  rw [List.any_eq_false]
  intro t ht
  simpa using hfresh t ht

/-- C6: creating with a passing bind, at a generator-supplied id that is
non-empty and absent from the store (the uuid generation policy), answers
201 with a task whose id is that fresh id — non-empty and distinct from
every stored task's id — and whose `createdAt` equals its `updatedAt`. -/
theorem createTask_fresh_ids (store : Store) (req : TaskRequest)
    (now : Nat) (newId : String) (hreq : bindOk req = true)
    (hne : newId ≠ "") (hfresh : ∀ t ∈ store, t.id ≠ newId) :
    ∃ task : Task,
      createTask store req now newId = ⟨201, some task, store ++ [task]⟩
      ∧ task.id ≠ "" ∧ (∀ t ∈ store, t.id ≠ task.id)
      ∧ task.createdAt = task.updatedAt := by
  refine ⟨⟨newId, req.title, req.dueDate, req.completed, now, now⟩,
    ?_, hne, hfresh, rfl⟩
  simp [createTask, hreq, any_id_eq_false hfresh]

/-- C6 witness: creating `"milk"` with fresh id `"b"` against a one-row
store answers 201. -/
theorem createTask_fresh_ids_witness :
    (createTask [⟨"a", "x", 3, false, 1, 1⟩] ⟨"milk", 5, false⟩ 9 "b").status
      = 201 := by
  obtain ⟨task, heq, -, -, -⟩ :=
    createTask_fresh_ids [⟨"a", "x", 3, false, 1, 1⟩] ⟨"milk", 5, false⟩ 9 "b"
      (by decide) (by decide) (by decide)
  rw [heq]

/-- C7: round-trip — creating with a passing bind at a fresh id and then
fetching that id answers 200 with a task whose `title` and `dueDate` are
exactly the ones supplied in the creation request. -/
theorem create_then_get_roundtrip (store : Store) (req : TaskRequest)
    (now : Nat) (newId : String) (hreq : bindOk req = true)
    (hfresh : ∀ t ∈ store, t.id ≠ newId) :
    ∃ task : Task,
      getTask (createTask store req now newId).store newId = ⟨200, some task⟩
      ∧ task.title = req.title ∧ task.dueDate = req.dueDate := by
  have hstore : (createTask store req now newId).store
      = store ++ [⟨newId, req.title, req.dueDate, req.completed, now, now⟩] := by
    simp [createTask, hreq, any_id_eq_false hfresh]
  refine ⟨⟨newId, req.title, req.dueDate, req.completed, now, now⟩,
    ?_, rfl, rfl⟩
  have hnone : store.find? (fun t => t.id == newId) = none := by
    rw [List.find?_eq_none]
    intro t ht
    simpa using hfresh t ht
  rw [getTask, hstore, List.find?_append, hnone]
  simp

/-- C7 witness: create `"Buy milk"` due at epoch second 1714521600
(2024-05-01T00:00:00Z), fetch it back, and read off the same title and
due date. -/
theorem create_then_get_roundtrip_witness :
    (getTask (createTask [] ⟨"Buy milk", 1714521600, false⟩ 42 "id-1").store
        "id-1").body.map (fun t => (t.title, t.dueDate))
      = some ("Buy milk", 1714521600) := by
  obtain ⟨task, heq, ht, hd⟩ :=
    create_then_get_roundtrip [] ⟨"Buy milk", 1714521600, false⟩ 42 "id-1"
      (by decide) (by decide)
  rw [heq]
  simp [ht, hd]

/-- C8: for every calendar day accepted by the create form and every
client time-zone offset, parsing the day as local midnight and then
formatting it for the API prints exactly that calendar day with
time-of-day zero — the wire timestamp has a fixed time-of-day and never
shifts the day, whatever the zone. -/
theorem wire_date_preserves_day (day : Nat) (tz : Int) :
    formatDateForApi (parseLocalMidnight day tz) tz = ((day : Int), 0) := by
  show ((((day : Int) * (secondsPerDay : Int) - tz + tz)
          / (secondsPerDay : Int),
        ((day : Int) * (secondsPerDay : Int) - tz + tz)
          % (secondsPerDay : Int)) : Int × Int)
      = ((day : Int), 0)
  have h : (day : Int) * (secondsPerDay : Int) - tz + tz
      = (day : Int) * (secondsPerDay : Int) := by ring
  rw [h, Prod.mk.injEq]
  exact ⟨Int.mul_ediv_cancel _ (by decide), Int.mul_emod_left _ _⟩

lemma goodStore_mono {s : Store} {c c2 : Nat} (h : GoodStore s c)
    (hc : c ≤ c2) : GoodStore s c2 :=
  fun t ht => ⟨(h t ht).1, Nat.le_trans (h t ht).2 hc⟩

lemma applyOp_good (s : Store) (op : Op) (now c : Nat)
    (hc : c ≤ now) (h : GoodStore s c) :
    GoodStore (applyOp s op now) now := by
  have hm : GoodStore s now := goodStore_mono h hc
  cases op with
  | create req newId =>
    simp only [applyOp, createTask]
    split
    · exact hm
    · split
      · exact hm
      · intro t ht
        rcases List.mem_append.mp ht with h1 | h2
        · exact hm t h1
        · rw [List.mem_singleton.mp h2]
          exact ⟨Nat.le_refl now, Nat.le_refl now⟩
  | update id req =>
    simp only [applyOp, updateTask]
    have hmap : GoodStore
        (s.map (fun t => if t.id == id then applyUpdate req now t else t))
        now := by
      intro t ht
      rcases List.mem_map.mp ht with ⟨a, ha, rfl⟩
      by_cases hid : a.id == id
      · rw [if_pos hid]
        exact ⟨(hm a ha).2, (hm a ha).2⟩
      · rw [if_neg hid]
        exact hm a ha
    split
    · exact hm
    · split
      · exact hmap
      · exact hmap
  | delete id =>
    simp only [applyOp, deleteTask]
    have hf : GoodStore (s.filter (fun t => !(t.id == id))) now :=
      fun t ht => hm t (List.mem_of_mem_filter ht)
    split
    · exact hf
    · exact hf

lemma run_createdAt_le (trace : List (Op × Nat)) :
    ∀ (s : Store) (c : Nat), GoodStore s c →
      List.Chain' (fun a b : Op × Nat => a.2 ≤ b.2) trace →
      (∀ p ∈ trace.head?, c ≤ p.2) →
      ∀ t ∈ run s trace, t.createdAt ≤ t.updatedAt := by
  induction trace with
  | nil =>
    intro s c hs _ _ t ht
    exact (hs t ht).1
  | cons p rest ih =>
    intro s c hs hchain hfirst
    obtain ⟨op, now⟩ := p
    have hc : c ≤ now := hfirst (op, now) rfl
    obtain ⟨hhead, hrest⟩ := List.chain'_cons'.mp hchain
    exact ih (applyOp s op now) now (applyOp_good s op now c hc hs) hrest hhead

/-- C9: starting from the empty store, after any sequence of
create/update/delete handler calls whose `time.Now()` readings are
non-decreasing, every row of the resulting store satisfies
`createdAt ≤ updatedAt`. -/
theorem reachable_timestamps_ordered (trace : List (Op × Nat))
    (hmono : List.Chain' (fun a b : Op × Nat => a.2 ≤ b.2) trace) :
    ∀ t ∈ run [] trace, t.createdAt ≤ t.updatedAt :=
  run_createdAt_le trace [] 0
    (fun t ht => absurd ht (List.not_mem_nil t)) hmono
    (fun _ _ => Nat.zero_le _)

/-- C9 witness: create at clock 5 then toggle-complete at clock 8; the
surviving row has `createdAt = 5 ≤ 8 = updatedAt`. -/
theorem reachable_timestamps_ordered_witness :
    (⟨"id1", "x", 3, true, 5, 8⟩ : Task).createdAt
      ≤ (⟨"id1", "x", 3, true, 5, 8⟩ : Task).updatedAt :=
  reachable_timestamps_ordered
    [(Op.create ⟨"x", 3, false⟩ "id1", 5), (Op.update "id1" ⟨"x", 3, true⟩, 8)]
    (by simp [List.chain'_cons]) ⟨"id1", "x", 3, true, 5, 8⟩ (by decide)

/-- C10: a successful update answers 200 with a body assembled from the
path id and the request body alone — its `createdAt` is the zero
timestamp — while in the store the `UPDATE` leaves every row's `id` and
`created_at` exactly as they were. -/
theorem updateTask_response_createdAt_zero (store : Store) (id : String)
    (req : TaskRequest) (now : Nat) (hreq : bindOk req = true)
    (hex : (store.filter (fun t => t.id == id)).length ≠ 0) :
    updateTask store id req now
      = ⟨200, some ⟨id, req.title, req.dueDate, req.completed, 0, now⟩,
          store.map (fun t => if t.id == id then applyUpdate req now t else t)⟩
    ∧ (updateTask store id req now).store.map (fun t => (t.id, t.createdAt))
        = store.map (fun t => (t.id, t.createdAt)) := by
  have heq : updateTask store id req now
      = ⟨200, some ⟨id, req.title, req.dueDate, req.completed, 0, now⟩,
          store.map
            (fun t => if t.id == id then applyUpdate req now t else t)⟩ := by
    unfold updateTask
    rw [hreq]
    simp [hex]
  refine ⟨heq, ?_⟩
  rw [heq]
  show (store.map _).map _ = _
  rw [List.map_map]
  apply List.map_congr_left
  intro t ht
  simp only [Function.comp_apply]
  by_cases hid : t.id == id
  · rw [if_pos hid]
    rfl
  · rw [if_neg hid]

/-- C10 witness: updating the sole row `"a"` answers 200 with a body
whose `createdAt` is 0, while the stored row keeps `createdAt = 1`. -/
theorem updateTask_response_createdAt_zero_witness :
    updateTask [⟨"a", "x", 3, false, 1, 1⟩] "a" ⟨"y", 5, true⟩ 9
      = ⟨200, some ⟨"a", "y", 5, true, 0, 9⟩, [⟨"a", "y", 5, true, 1, 9⟩]⟩ :=
  (updateTask_response_createdAt_zero [⟨"a", "x", 3, false, 1, 1⟩] "a"
      ⟨"y", 5, true⟩ 9 (by decide) (by decide)).1.trans (by decide)

end TodoApp
